import Mathlib

/-!
Verification development for the VideoContentRetrivalSystem repository.

The retrieval core lives in `src/vector_search.ipynb`: CLIP embeddings are
stored in a FAISS `IndexFlatIP` (exact inner-product search), persisted with
`faiss.write_index` / `faiss.read_index`, and queried through `query_index`,
which joins FAISS positions with the parallel `image_paths` list.  The
frontend (`api.ts`, `model.ts`) defines the external interface shapes.

Vectors are modelled as lists of rationals (exact stand-ins for the float32
components), FAISS's exact inner-product search as a deterministic
sort-by-score selection, and Python / TypeScript strings as Lean strings or
character lists.  Fallible code (FAISS dimension asserts, Python indexing)
is modelled with `Except` / `Option`.
-/

namespace VCRS

/-- Errors surfaced by the notebook's query path: the FAISS dimension assert
on `index.search` (the spec's `DimensionMismatch`) and Python's `IndexError`
from list indexing. -/
inductive PyError where
  | DimensionMismatch : PyError
  | IndexError : PyError
deriving DecidableEq, Repr

/-- Inner product of two vectors, the similarity score used by
`faiss.IndexFlatIP` (cosine similarity, since the notebook normalizes all
embeddings to unit norm before insertion). -/
def dot (u v : List ℚ) : ℚ :=
  (List.zipWith (· * ·) u v).sum

/-- Model of a FAISS `IndexFlatIP`: the fixed dimension `d` and the stored
vectors in insertion order (position = list index). -/
structure FlatIPIndex where
  d : Nat
  vecs : List (List ℚ)
deriving DecidableEq, Repr

/-- Model of `create_faiss_index(features)`: `d = features.shape[1]` and all
rows of the feature matrix are added in order. -/
def create_faiss_index (features : List (List ℚ)) : FlatIPIndex :=
  { d := (features.headD []).length, vecs := features }

/-- Ranking order on `(position, score)` pairs: higher score first, ties by
ascending position. `resOrder a b` means `a` is ranked at or before `b`. -/
def resOrder (a b : Int × ℚ) : Prop :=
  b.2 < a.2 ∨ (a.2 = b.2 ∧ a.1 ≤ b.1)

instance : DecidableRel resOrder := fun a b => by
  unfold resOrder; infer_instance

instance : IsTotal (Int × ℚ) resOrder := by
  constructor
  intro a b
  rcases lt_trichotomy a.2 b.2 with h | h | h
  · exact Or.inr (Or.inl h)
  · rcases Int.le_total a.1 b.1 with h1 | h1
    · exact Or.inl (Or.inr ⟨h, h1⟩)
    · exact Or.inr (Or.inr ⟨h.symm, h1⟩)
  · exact Or.inl (Or.inl h)

instance : IsTrans (Int × ℚ) resOrder := by
  constructor
  intro a b c hab hbc
  rcases hab with h1 | ⟨h1, h1'⟩ <;> rcases hbc with h2 | ⟨h2, h2'⟩
  · exact Or.inl (h2.trans h1)
  · exact Or.inl (h2 ▸ h1)
  · exact Or.inl (h1 ▸ h2)
  · exact Or.inr ⟨h1.trans h2, le_trans h1' h2'⟩

/-- Strict version of the ranking order: strictly higher score, or equal
score and strictly smaller position. -/
def strictRank (a b : Int × ℚ) : Prop :=
  b.2 < a.2 ∨ (a.2 = b.2 ∧ a.1 < b.1)

/-- The sentinel similarity FAISS writes into unfilled result slots of an
inner-product index: `-FLT_MAX`, exactly `-(2^128 - 2^104)` as a rational. -/
def fltMin : ℚ := -(2 ^ 128 - 2 ^ 104)

/-- All `(position, score)` pairs of an index against a query: position `i`
scored by the inner product of the query with the `i`-th stored vector. -/
def scoredList (idx : FlatIPIndex) (q : List ℚ) : List (Int × ℚ) :=
  (List.range idx.vecs.length).map (fun (i : Nat) => ((i : Int), dot q (idx.vecs.getD i [])))

/-- Model of `index.search` for a single query row: FAISS returns exactly
`k` slots — the stored entries ranked by descending score (ties by ascending
position) fill the first `min k N` slots, and when `k` exceeds the number of
stored vectors `N` the remaining slots are padded with label `-1` and the
sentinel similarity. -/
def faissSearchOne (idx : FlatIPIndex) (q : List ℚ) (k : Nat) : List (Int × ℚ) :=
  (List.insertionSort resOrder (scoredList idx q)).take k
    ++ List.replicate (k - idx.vecs.length) ((-1 : Int), fltMin)

/-- Model of `index.search(query_features, top_k)` on a batch: FAISS asserts
that the query matrix's column count equals the index dimension `d`
(`DimensionMismatch` otherwise) and searches each row independently. -/
def faissSearch (idx : FlatIPIndex) (qs : List (List ℚ)) (k : Nat) :
    Except PyError (List (List (Int × ℚ))) :=
  if qs.all (fun q => q.length = idx.d) then
    .ok (qs.map (fun q => faissSearchOne idx q k))
  else
    .error .DimensionMismatch

/-- Python list indexing `paths[i]` with an `int` (possibly negative) index:
a negative index counts from the end (`paths[-1]` is the last element), and
an out-of-range index raises `IndexError` (modelled as `none`). -/
def pyGet (paths : List String) (i : Int) : Option String :=
  if 0 ≤ i then
    paths[i.toNat]?
  else
    let j : Int := (paths.length : Int) + i
    if 0 ≤ j then paths[j.toNat]? else none

/-- Looks up one FAISS result slot `(idx, score)` in `image_paths`, the pair
`(image_paths[idx], score)` appended by `query_index`'s inner loop. -/
def resolveSlot (paths : List String) (e : Int × ℚ) : Option (String × ℚ) :=
  (pyGet paths e.1).map (fun p => (p, e.2))

/-- Resolves every slot of one query's FAISS result row, failing with
Python's `IndexError` (`none`) if any lookup is out of range. -/
def resolveRow (paths : List String) : List (Int × ℚ) → Option (List (String × ℚ))
  | [] => some []
  | e :: es =>
    (resolveSlot paths e).bind fun p =>
      (resolveRow paths es).map fun rest => p :: rest

/-- Resolves the FAISS result rows of all queries in order. -/
def resolveRows (paths : List String) :
    List (List (Int × ℚ)) → Option (List (List (String × ℚ)))
  | [] => some []
  | r :: rs =>
    (resolveRow paths r).bind fun out =>
      (resolveRows paths rs).map fun rest => out :: rest

/-- Model of the notebook's `query_index(index, query_features, image_paths,
top_k)` (the Python default for `top_k` is 3): runs `index.search`, then for
each query builds the list of `(image_paths[idx], score)` pairs in rank
order. Failure modes: the FAISS dimension assert, and `IndexError` if a
returned label is out of range for `image_paths`. -/
def query_index (idx : FlatIPIndex) (query_features : List (List ℚ))
    (image_paths : List String) (top_k : Nat) :
    Except PyError (List (List (String × ℚ))) :=
  match faissSearch idx query_features top_k with
  | .error e => .error e
  | .ok results =>
    match resolveRows image_paths results with
    | some out => .ok out
    | none => .error .IndexError

/-- Snapshot written by `save_faiss_index` / `faiss.write_index`: a
self-describing header (dimension, vector count) followed by the vector
components flattened in insertion order. -/
structure Snapshot where
  dim : Nat
  count : Nat
  data : List ℚ
deriving DecidableEq, Repr

/-- Model of `save_faiss_index(index, file_path)` (`faiss.write_index`):
serializes the dimension, the vector count and the raw vectors in order. -/
def save_faiss_index (idx : FlatIPIndex) : Snapshot :=
  { dim := idx.d, count := idx.vecs.length, data := idx.vecs.flatten }

/-- Splits serialized vector data back into `count` vectors of `dim`
components each. -/
def unflatten (dim : Nat) : Nat → List ℚ → List (List ℚ)
  | 0, _ => []
  | n + 1, l => l.take dim :: unflatten dim n (l.drop dim)

/-- Model of `load_faiss_index(file_path)` (`faiss.read_index`):
reconstructs the index from a snapshot, failing (`CorruptSnapshot`) if the
data length disagrees with the header. -/
def load_faiss_index (s : Snapshot) : Option FlatIPIndex :=
  if s.data.length = s.count * s.dim then
    some { d := s.dim, vecs := unflatten s.dim s.count s.data }
  else
    none

/-- Lower-casing of a Python/JS string modelled as a character list
(`str.lower()` on the ASCII paths these cells handle). -/
def lowerL (s : List Char) : List Char :=
  s.map Char.toLower

/-- Suffix test on character lists (`str.endswith`). -/
def endsWithL (s pat : List Char) : Bool :=
  decide (s.drop (s.length - pat.length) = pat) && decide (pat.length ≤ s.length)

/-- Lexicographic comparison of character lists by code point, Python's
string ordering (`lexLeL a b` iff `a <= b`). -/
def lexLeL : List Char → List Char → Bool
  | [], _ => true
  | _ :: _, [] => false
  | a :: as, b :: bs => if a = b then lexLeL as bs else decide (a.toNat < b.toNat)

/-- Extension filter of both notebook cells:
`file.lower().endswith(('.png', '.jpg', '.jpeg'))`. -/
def isImageFile (file : List Char) : Bool :=
  endsWithL (lowerL file) ".png".toList || endsWithL (lowerL file) ".jpg".toList
    || endsWithL (lowerL file) ".jpeg".toList

/-- Model of the index-build cell's `image_paths`: the files produced by
`os.walk` (given here as `walkFiles`, in the filesystem's enumeration
order), filtered to image extensions, then sorted with
`image_paths.sort(key=lambda x: x.lower())`. The embeddings, and hence the
FAISS positions, follow this sorted order. -/
def buildImagePaths (walkFiles : List (List Char)) : List (List Char) :=
  List.insertionSort (fun a b => lexLeL (lowerL a) (lowerL b) = true)
    (walkFiles.filter isImageFile)

/-- Model of the query cell's `image_paths`: rebuilt from `os.walk` with the
same extension filter but WITHOUT the sort — the list `query_index` uses to
resolve FAISS positions stays in filesystem enumeration order. -/
def queryImagePaths (walkFiles : List (List Char)) : List (List Char) :=
  walkFiles.filter isImageFile

/-- Errors of the external search interface contract (spec §6/§7). -/
inductive ApiError where
  | InvalidArgument : ApiError
deriving DecidableEq, Repr

/-- Search request issued by the frontend's `searchImages`: the query text
and the `top_k` parameter placed in the GET /search URL. -/
structure SearchRequest where
  query : String
  top_k : Nat
deriving DecidableEq, Repr

/-- Model of `searchImages(query, topK)` from `api.ts`, restricted to the
request it issues (`GET /search?query=...&top_k=topK`); the fetch itself and
the keyframe-path post-processing of the response are I/O, elided here. -/
def searchImages (query : String) (topK : Nat) : SearchRequest :=
  { query := query, top_k := topK }

/-- Model of a call `searchImages(query)` that leaves `topK` unspecified:
the TypeScript default parameter `topK: number = 10` applies. -/
def searchImagesNoTopK (query : String) : SearchRequest :=
  searchImages query 10

/-- Modelled from the spec: the backend's validation of `top_k` on the
/search endpoint (`backend.py` is not under src/; only its caller
`searchImages` is). Spec §6: `top_k` "must be a positive integer, else
`InvalidArgument`". -/
def validate_top_k (topK : Int) : Except ApiError Nat :=
  if 0 < topK then .ok topK.toNat else .error .InvalidArgument

/-- Shot descriptor, from the `VideoMetadata` interface of `model.ts`
("mirroring the FastAPI model"). -/
structure VideoMetadata where
  video_id : String
  shot : Int
  start_frame : Int
  end_frame : Int
  start_time : ℚ
  end_time : ℚ
  keyframe_path : String
deriving DecidableEq, Repr

/-- Shape of the health endpoint's response, from the `HealthCheckResponse`
interface of `model.ts`. -/
structure HealthCheckResponse where
  status : String
  models_loaded : Bool
  device : String
  index_size : Int
  metadata_loaded : Bool
deriving DecidableEq, Repr

/-- Field names of the `HealthCheckResponse` interface in `model.ts`, in
declaration order. -/
def healthCheckResponseFields : List String :=
  ["status", "models_loaded", "device", "index_size", "metadata_loaded"]

/-- Aggregate record returned by stats() when data is loaded (the non-error
fields of `StatsResponse` in `model.ts` that the spec's stats() contract
names). -/
structure StatsData where
  total_videos : Nat
  total_shots : Nat
  total_duration_seconds : ℚ
  average_shot_duration : ℚ
deriving DecidableEq, Repr

/-- Modelled from the spec: the backend's stats() computation (`backend.py`
is not under src/; only its response shape, the `StatsResponse` interface of
`model.ts` with its optional `error` field "for the case where no metadata
is loaded", is). Spec §4.6: `total_videos` is the count of distinct
`video_id`s, `average_shot_duration` the mean of `end_time - start_time`
over all records, and the empty store yields a documented no-data marker
instead of dividing by zero. -/
def stats (records : List VideoMetadata) : Except String StatsData :=
  if records.isEmpty then
    .error "No metadata loaded"
  else
    let durations := records.map (fun r => r.end_time - r.start_time)
    .ok { total_videos := ((records.map (fun r => r.video_id)).dedup).length,
          total_shots := records.length,
          total_duration_seconds := durations.sum,
          average_shot_duration := durations.sum / (records.length : ℚ) }

/-- Prefix test on strings modelled as character lists (JavaScript's
`String.prototype.startsWith`). -/
def startsWithL (s pat : List Char) : Bool :=
  decide (s.take pat.length = pat)

/-- JavaScript's `String.prototype.replace` with a string pattern: replaces
only the FIRST occurrence of `pat` in the subject with `rep`. -/
def replaceFirst (pat rep : List Char) : List Char → List Char
  | [] => if pat.isEmpty then rep else []
  | c :: cs =>
    if startsWithL (c :: cs) pat then rep ++ (c :: cs).drop pat.length
    else c :: replaceFirst pat rep cs

/-- The `API_BASE_URL` constant of `api.ts`, as a character list. -/
def API_BASE_URL : List Char := "http://localhost:8000".toList

/-- The keyframe base path `adjustKeyframePath` rewrites, as a character
list: `./SBDresults/keyframes/`. -/
def keyframeBase : List Char := "./SBDresults/keyframes/".toList

/-- Model of `adjustKeyframePath(originalPath)` from `api.ts` (strings as
character lists): paths under `./SBDresults/keyframes/` are rewritten to
`${API_BASE_URL}/keyframes/` followed by the rest (via `replace`, which
drops the first occurrence of the base); every other path is returned
unchanged. -/
def adjustKeyframePath (originalPath : List Char) : List Char :=
  if startsWithL originalPath keyframeBase then
    API_BASE_URL ++ "/keyframes/".toList ++ replaceFirst keyframeBase [] originalPath
  else
    originalPath

/-! ### Helper lemmas -/

theorem adjusted_path_not_under_base (r : List Char) :
    startsWithL (API_BASE_URL ++ "/keyframes/".toList ++ r) keyframeBase = false := by
  have h : (API_BASE_URL ++ "/keyframes/".toList ++ r).take keyframeBase.length
      = (API_BASE_URL ++ "/keyframes/".toList).take keyframeBase.length :=
    List.take_append_of_le_length (by decide)
  simp only [startsWithL, h]
  decide

theorem adjust_eq_of_not_base (s : List Char)
    (h : startsWithL s keyframeBase = false) : adjustKeyframePath s = s := by
  simp [adjustKeyframePath, h]

/-! ### C10 -/

/-- C10: `adjustKeyframePath` is the identity on every string that does not
start with `./SBDresults/keyframes/`, and it is idempotent: applying it
twice returns the same result as applying it once. -/
theorem adjustKeyframePath_id_and_idem :
    (∀ s : List Char, startsWithL s keyframeBase = false →
      adjustKeyframePath s = s) ∧
    (∀ s : List Char,
      adjustKeyframePath (adjustKeyframePath s) = adjustKeyframePath s) := by
  refine ⟨adjust_eq_of_not_base, fun s => ?_⟩
  by_cases h : startsWithL s keyframeBase = true
  · conv in adjustKeyframePath s => rw [adjustKeyframePath]
    rw [if_pos h, adjust_eq_of_not_base _ (adjusted_path_not_under_base _),
      adjustKeyframePath, if_pos h]
  · have h' : startsWithL s keyframeBase = false := by
      simpa using h
    rw [adjust_eq_of_not_base _ h', adjust_eq_of_not_base _ h']

/-- Witness for C10 at concrete paths: a path outside the keyframe base is
unchanged, and re-adjusting an already adjusted keyframe path is a no-op. -/
theorem adjustKeyframePath_id_and_idem_witness :
    adjustKeyframePath "videos/x.jpg".toList = "videos/x.jpg".toList ∧
    adjustKeyframePath
        (adjustKeyframePath "./SBDresults/keyframes/00102/00102_24.jpg".toList)
      = adjustKeyframePath "./SBDresults/keyframes/00102/00102_24.jpg".toList :=
  ⟨adjustKeyframePath_id_and_idem.1 _ (by decide),
   adjustKeyframePath_id_and_idem.2 _⟩

/-! ### C7 -/

/-- C7 counterexample: the health response of `model.ts` does not consist of
the fields `index_loaded`, `vector_count`, `metadata_loaded` claimed for
`health()`. -/
theorem healthFields_ne_claimed :
    healthCheckResponseFields ≠ ["index_loaded", "vector_count", "metadata_loaded"] := by
  decide

/-- C7 (amended): every health() response has exactly the fields `status`,
`models_loaded`, `device`, `index_size` and `metadata_loaded`; in
particular `metadata_loaded` is present but `index_loaded` and
`vector_count` are not (their roles are played by `models_loaded` and
`index_size`). -/
theorem healthFields_actual :
    healthCheckResponseFields
        = ["status", "models_loaded", "device", "index_size", "metadata_loaded"] ∧
    "metadata_loaded" ∈ healthCheckResponseFields ∧
    "index_loaded" ∉ healthCheckResponseFields ∧
    "vector_count" ∉ healthCheckResponseFields := by
  refine ⟨rfl, ?_, ?_, ?_⟩ <;> decide

/-! ### C6 -/

/-- C6: a `searchImages` call that leaves `topK` unspecified behaves as the
same call with `topK = 10`, and the (spec-modelled) backend validation
rejects every non-positive `top_k` with `InvalidArgument` while accepting
every positive one. -/
theorem search_topk_default_and_validation :
    (∀ q : String, searchImagesNoTopK q = searchImages q 10) ∧
    (∀ t : Int, ¬ 0 < t → validate_top_k t = .error .InvalidArgument) ∧
    (∀ t : Int, 0 < t → validate_top_k t = .ok t.toNat) := by
  refine ⟨fun q => rfl, fun t ht => ?_, fun t ht => ?_⟩ <;>
    simp [validate_top_k, ht]

/-- Witness for C6 at concrete arguments: the default is 10, `top_k = 0` is
rejected, `top_k = 10` is accepted. -/
theorem search_topk_default_and_validation_witness :
    searchImagesNoTopK "guitar" = searchImages "guitar" 10 ∧
    validate_top_k 0 = .error .InvalidArgument ∧
    validate_top_k 10 = .ok 10 :=
  ⟨search_topk_default_and_validation.1 "guitar",
   search_topk_default_and_validation.2.1 0 (by decide),
   search_topk_default_and_validation.2.2 10 (by decide)⟩

/-! ### C2 -/

/-- C2: the index-build cell and the query cell disagree about which
keyframe sits at which position. On a filesystem whose `os.walk` order is
`[b.jpg, a.jpg]`, the index is built over the sorted list
`[a.jpg, b.jpg]` while the query cell resolves positions against the
unsorted list `[b.jpg, a.jpg]`, so position 0's embedding and position 0's
metadata describe different keyframes — the alignment invariant does not
hold on this code. -/
theorem walk_order_breaks_alignment :
    buildImagePaths ["b.jpg".toList, "a.jpg".toList]
        = ["a.jpg".toList, "b.jpg".toList] ∧
    queryImagePaths ["b.jpg".toList, "a.jpg".toList]
        = ["b.jpg".toList, "a.jpg".toList] ∧
    (queryImagePaths ["b.jpg".toList, "a.jpg".toList])[0]?
      ≠ (buildImagePaths ["b.jpg".toList, "a.jpg".toList])[0]? := by
  refine ⟨?_, ?_, ?_⟩ <;> decide

/-! ### C8 -/

/-- C8: for a non-empty metadata store, stats() reports `total_videos` equal
to the number of distinct `video_id`s, `total_shots` equal to the record
count, `total_duration_seconds` equal to the summed shot durations, and an
`average_shot_duration` that is exactly the mean of `end_time - start_time`
(characterized as: average times record count equals the duration sum); the
empty store yields the documented no-data marker instead of a division. -/
theorem stats_distinct_count_and_mean (records : List VideoMetadata)
    (h : records ≠ []) :
    (∃ s, stats records = .ok s ∧
      s.total_videos = (records.map (fun r => r.video_id)).toFinset.card ∧
      s.total_shots = records.length ∧
      s.total_duration_seconds
        = (records.map (fun r => r.end_time - r.start_time)).sum ∧
      s.average_shot_duration * (records.length : ℚ)
        = (records.map (fun r => r.end_time - r.start_time)).sum) ∧
    stats [] = .error "No metadata loaded" := by
  have hlen : ((records.length : ℚ)) ≠ 0 :=
    Nat.cast_ne_zero.mpr (Nat.pos_iff_ne_zero.mp (List.length_pos.mpr h))
  have hok : stats records
      = .ok ⟨((records.map (fun r => r.video_id)).dedup).length, records.length,
          (records.map (fun r => r.end_time - r.start_time)).sum,
          (records.map (fun r => r.end_time - r.start_time)).sum
            / (records.length : ℚ)⟩ := by
    simp [stats, List.isEmpty_iff, h]
  refine ⟨⟨_, hok, ?_, rfl, rfl, ?_⟩, rfl⟩
  · exact (List.card_toFinset _).symm
  · exact div_mul_cancel₀ _ hlen

/-- Demonstration metadata: the spec's end-to-end scenario, three shots of
video "00102" with times (0,2), (2,5), (5,9). -/
def demoRecords : List VideoMetadata :=
  [{ video_id := "00102", shot := 0, start_frame := 0, end_frame := 50,
     start_time := 0, end_time := 2, keyframe_path := "k0.jpg" },
   { video_id := "00102", shot := 1, start_frame := 51, end_frame := 125,
     start_time := 2, end_time := 5, keyframe_path := "k1.jpg" },
   { video_id := "00102", shot := 2, start_frame := 126, end_frame := 225,
     start_time := 5, end_time := 9, keyframe_path := "k2.jpg" }]

/-- Witness for C8 at the three-shot demonstration store. -/
theorem stats_distinct_count_and_mean_witness :
    (∃ s, stats demoRecords = .ok s ∧
      s.total_videos = (demoRecords.map (fun r => r.video_id)).toFinset.card ∧
      s.total_shots = demoRecords.length ∧
      s.total_duration_seconds
        = (demoRecords.map (fun r => r.end_time - r.start_time)).sum ∧
      s.average_shot_duration * (demoRecords.length : ℚ)
        = (demoRecords.map (fun r => r.end_time - r.start_time)).sum) ∧
    stats [] = .error "No metadata loaded" :=
  stats_distinct_count_and_mean demoRecords (by simp [demoRecords])

/-! ### C5 -/

/-- C5: a query vector whose length differs from the index's fixed dimension
makes the search fail with `DimensionMismatch` (FAISS's dimension assert on
`index.search`), both at the FAISS level and through `query_index`, instead
of returning a result list. -/
theorem query_wrong_dim_fails (idx : FlatIPIndex) (q : List ℚ)
    (paths : List String) (k : Nat) (h : q.length ≠ idx.d) :
    query_index idx [q] paths k = .error .DimensionMismatch ∧
    faissSearch idx [q] k = .error .DimensionMismatch := by
  have hall : ([q].all (fun v => v.length = idx.d)) = false := by
    simp [h]
  exact ⟨by simp [query_index, faissSearch, hall], by simp [faissSearch, hall]⟩

/-- Witness for C5: a 2-component query against a 1-dimensional index. -/
theorem query_wrong_dim_fails_witness :
    query_index ⟨1, [[(1 : ℚ)]]⟩ [[(1 : ℚ), 2]] ["a"] 3
        = .error .DimensionMismatch ∧
    faissSearch ⟨1, [[(1 : ℚ)]]⟩ [[(1 : ℚ), 2]] 3 = .error .DimensionMismatch :=
  query_wrong_dim_fails ⟨1, [[(1 : ℚ)]]⟩ [(1 : ℚ), 2] ["a"] 3 (by decide)

/-! ### C3 -/

theorem unflatten_flatten (d : Nat) (vecs : List (List ℚ))
    (h : ∀ v ∈ vecs, v.length = d) :
    unflatten d vecs.length vecs.flatten = vecs := by
  induction vecs with
  | nil => rfl
  | cons v vs ih =>
    have hv : v.length = d := h v (List.mem_cons_self _ _)
    simp only [List.length_cons, List.flatten_cons, unflatten]
    rw [← hv, List.take_left, List.drop_left, hv,
      ih (fun w hw => h w (List.mem_cons_of_mem _ hw))]

theorem flatten_length_of_dims (d : Nat) (vecs : List (List ℚ))
    (h : ∀ v ∈ vecs, v.length = d) :
    vecs.flatten.length = vecs.length * d := by
  induction vecs with
  | nil => simp
  | cons v vs ih =>
    have hv : v.length = d := h v (List.mem_cons_self _ _)
    simp only [List.flatten_cons, List.length_append, List.length_cons,
      ih (fun w hw => h w (List.mem_cons_of_mem _ hw)), hv]
    ring

/-- C3: saving an index and loading the snapshot back yields an index whose
search results — positions, scores and order, through both the raw FAISS
search and `query_index`'s joined results — are identical to those of the
pre-save index, for any fixed query batch and `k`. -/
theorem save_load_roundtrip (idx : FlatIPIndex)
    (h : ∀ v ∈ idx.vecs, v.length = idx.d)
    (qs : List (List ℚ)) (k : Nat) (paths : List String) :
    ∃ idx2, load_faiss_index (save_faiss_index idx) = some idx2 ∧
      faissSearch idx2 qs k = faissSearch idx qs k ∧
      query_index idx2 qs paths k = query_index idx qs paths k := by
  refine ⟨idx, ?_, rfl, rfl⟩
  unfold load_faiss_index save_faiss_index
  rw [if_pos (flatten_length_of_dims idx.d idx.vecs h),
    unflatten_flatten idx.d idx.vecs h]

/-- Witness for C3: a 2-dimensional index with two stored vectors
round-trips and answers a concrete query identically. -/
theorem save_load_roundtrip_witness :
    ∃ idx2, load_faiss_index (save_faiss_index ⟨2, [[(1 : ℚ), 2], [3, 4]]⟩)
        = some idx2 ∧
      faissSearch idx2 [[(1 : ℚ), 0]] 1
        = faissSearch ⟨2, [[(1 : ℚ), 2], [3, 4]]⟩ [[(1 : ℚ), 0]] 1 ∧
      query_index idx2 [[(1 : ℚ), 0]] ["a", "b"] 1
        = query_index ⟨2, [[(1 : ℚ), 2], [3, 4]]⟩ [[(1 : ℚ), 0]] ["a", "b"] 1 :=
  save_load_roundtrip ⟨2, [[(1 : ℚ), 2], [3, 4]]⟩ (by decide) [[(1 : ℚ), 0]] 1
    ["a", "b"]

/-! ### C1 -/

theorem scoredList_length (idx : FlatIPIndex) (q : List ℚ) :
    (scoredList idx q).length = idx.vecs.length := by
  simp [scoredList]

theorem scoredList_nodup_fst (idx : FlatIPIndex) (q : List ℚ) :
    ((scoredList idx q).map Prod.fst).Nodup := by
  have h : (scoredList idx q).map Prod.fst
      = (List.range idx.vecs.length).map (fun (i : Nat) => (i : Int)) := by
    simp [scoredList, List.map_map]
  rw [h]
  exact (List.nodup_range _).map (fun a b hab => by exact_mod_cast hab)

/-- C1 (amended): for a query of the index's dimension, `search` returns
exactly `k` result slots per query: the first `min k N` are stored entries
`(position, inner-product score)` sorted strictly descending by score with
ties broken by ascending position, and when `k` exceeds the number `N` of
stored vectors the remaining `k - N` slots are FAISS padding `(-1,
sentinel)` — rather than the sequence being cut to `min k N` entries or the
call failing. -/
theorem search_returns_k_sorted_padded (idx : FlatIPIndex) (q : List ℚ)
    (k : Nat) (hq : q.length = idx.d) :
    ∃ r, faissSearch idx [q] k = .ok [r] ∧
      r.length = k ∧
      List.Pairwise strictRank (r.take (min k idx.vecs.length)) ∧
      (∀ e ∈ r.take (min k idx.vecs.length), e ∈ scoredList idx q) ∧
      r.drop (min k idx.vecs.length)
        = List.replicate (k - idx.vecs.length) ((-1 : Int), fltMin) := by
  set N := idx.vecs.length with hN
  set S := List.insertionSort resOrder (scoredList idx q) with hS
  have hperm : List.Perm S (scoredList idx q) := List.perm_insertionSort resOrder _
  have hSlen : S.length = N := by
    rw [hperm.length_eq, scoredList_length]
  have hsearch : faissSearch idx [q] k = .ok [faissSearchOne idx q k] := by
    simp [faissSearch, hq]
  have hr : faissSearchOne idx q k
      = S.take k ++ List.replicate (k - N) ((-1 : Int), fltMin) := rfl
  have htk : (S.take k).length = min k N := by
    rw [List.length_take, hSlen]
  have htake' : S.take (min k N) = S.take k := by
    rcases Nat.le_total k N with h | h
    · rw [Nat.min_eq_left h]
    · rw [Nat.min_eq_right h, ← hSlen, List.take_length,
        List.take_of_length_le (by omega)]
  have htake : (faissSearchOne idx q k).take (min k N) = S.take k := by
    rw [hr, List.take_append_of_le_length (htk ▸ le_refl _), List.take_take]
    have hmm : min (min k N) k = min k N := by omega
    rw [hmm, htake']
  have hlen : (faissSearchOne idx q k).length = k := by
    rw [hr, List.length_append, htk, List.length_replicate]
    omega
  have hsub : List.Sublist (S.take k) S := List.take_sublist k S
  have hsorted_take : List.Pairwise resOrder (S.take k) :=
    (List.sorted_insertionSort resOrder _).sublist hsub
  have hnodup : (S.map Prod.fst).Nodup :=
    ((hperm.map Prod.fst).nodup_iff).mpr (scoredList_nodup_fst idx q)
  have hnd_take : ((S.take k).map Prod.fst).Nodup :=
    hnodup.sublist (hsub.map Prod.fst)
  have hne_take : List.Pairwise (fun a b : Int × ℚ => a.1 ≠ b.1) (S.take k) :=
    List.pairwise_map.mp hnd_take
  have hstrict : List.Pairwise strictRank (S.take k) := by
    refine (hsorted_take.and hne_take).imp ?_
    rintro a b ⟨h1 | ⟨h1, h2⟩, hne⟩
    · exact Or.inl h1
    · exact Or.inr ⟨h1, lt_of_le_of_ne h2 hne⟩
  have hdrop : (faissSearchOne idx q k).drop (min k N)
      = List.replicate (k - N) ((-1 : Int), fltMin) := by
    rw [hr, ← htk, List.drop_left]
  refine ⟨faissSearchOne idx q k, hsearch, hlen, ?_, ?_, hdrop⟩
  · rw [htake]; exact hstrict
  · rw [htake]
    exact fun e he => hperm.mem_iff.mp (hsub.subset he)

/-- Witness for C1 (amended) at a 1-dimensional index holding two vectors
queried with k = 2. -/
theorem search_returns_k_sorted_padded_witness :
    ∃ r, faissSearch ⟨1, [[(1 : ℚ)], [2]]⟩ [[(1 : ℚ)]] 2 = .ok [r] ∧
      r.length = 2 ∧
      List.Pairwise strictRank
        (r.take (min 2 (FlatIPIndex.mk 1 [[(1 : ℚ)], [2]]).vecs.length)) ∧
      (∀ e ∈ r.take (min 2 (FlatIPIndex.mk 1 [[(1 : ℚ)], [2]]).vecs.length),
        e ∈ scoredList ⟨1, [[(1 : ℚ)], [2]]⟩ [(1 : ℚ)]) ∧
      r.drop (min 2 (FlatIPIndex.mk 1 [[(1 : ℚ)], [2]]).vecs.length)
        = List.replicate (2 - (FlatIPIndex.mk 1 [[(1 : ℚ)], [2]]).vecs.length)
            ((-1 : Int), fltMin) :=
  search_returns_k_sorted_padded ⟨1, [[(1 : ℚ)], [2]]⟩ [(1 : ℚ)] 2 rfl

/-- C1 counterexample: on an index holding a single vector, a search with
`k = 2` returns 2 slots, not `min k N = 1` — the claimed length is wrong
whenever `k` exceeds the index size. -/
theorem search_k_exceeding_size_not_min :
    faissSearch ⟨1, [[(1 : ℚ)]]⟩ [[(1 : ℚ)]] 2
        = .ok [[((0 : Int), (1 : ℚ)), ((-1 : Int), fltMin)]] ∧
    [((0 : Int), (1 : ℚ)), ((-1 : Int), fltMin)].length
      ≠ min 2 (FlatIPIndex.mk 1 [[(1 : ℚ)]]).vecs.length := by
  constructor
  · simp [faissSearch, faissSearchOne, scoredList, dot, List.range_succ]
  · decide

/-! ### C9 -/

theorem resolveRow_append (paths : List String) (a b : List (Int × ℚ))
    (ra rb : List (String × ℚ)) (ha : resolveRow paths a = some ra)
    (hb : resolveRow paths b = some rb) :
    resolveRow paths (a ++ b) = some (ra ++ rb) := by
  induction a generalizing ra with
  | nil =>
    simp only [resolveRow] at ha
    cases ha
    simpa using hb
  | cons e es ih =>
    simp only [resolveRow, List.cons_append] at ha ⊢
    rcases Option.bind_eq_some.mp ha with ⟨p, hp, hrest⟩
    rcases Option.map_eq_some'.mp hrest with ⟨rest, hres, hcons⟩
    subst hcons
    rw [hp, Option.some_bind, List.append_eq, ih rest hres, Option.map_some']
    rfl

theorem resolveRow_length (paths : List String) (es : List (Int × ℚ))
    (out : List (String × ℚ)) (h : resolveRow paths es = some out) :
    out.length = es.length := by
  induction es generalizing out with
  | nil =>
    simp only [resolveRow] at h
    cases h
    rfl
  | cons e es ih =>
    simp only [resolveRow] at h
    rcases Option.bind_eq_some.mp h with ⟨p, _, hrest⟩
    rcases Option.map_eq_some'.mp hrest with ⟨rest, hres, hcons⟩
    subst hcons
    simp [ih rest hres]

theorem resolveRow_total (paths : List String) (es : List (Int × ℚ))
    (h : ∀ e ∈ es, (pyGet paths e.1).isSome) :
    ∃ out, resolveRow paths es = some out := by
  induction es with
  | nil => exact ⟨[], rfl⟩
  | cons e es ih =>
    obtain ⟨p, hp⟩ := Option.isSome_iff_exists.mp (h e (List.mem_cons_self _ _))
    obtain ⟨rest, hrest⟩ := ih (fun x hx => h x (List.mem_cons_of_mem _ hx))
    exact ⟨(p, e.2) :: rest, by
      simp only [resolveRow, resolveSlot, hp, hrest, Option.map_some',
        Option.some_bind]⟩

theorem pyGet_neg_one (paths : List String) (hne : paths ≠ []) :
    pyGet paths (-1) = some (paths.getLast hne) := by
  have hlen : 0 < paths.length := List.length_pos.mpr hne
  have ht : ((paths.length : Int) + (-1)).toNat = paths.length - 1 := by omega
  simp only [pyGet]
  rw [if_neg (by omega), if_pos (by omega), ht]
  rw [List.getLast_eq_getElem, List.getElem?_eq_getElem (by omega)]

theorem resolveRow_replicate (paths : List String) (hne : paths ≠ []) (m : Nat) :
    resolveRow paths (List.replicate m ((-1 : Int), fltMin))
      = some (List.replicate m (paths.getLast hne, fltMin)) := by
  induction m with
  | zero => rfl
  | succ n ih =>
    simp only [List.replicate_succ, resolveRow, resolveSlot,
      pyGet_neg_one paths hne, Option.map_some', Option.some_bind, ih]

theorem scoredList_fst_lt (idx : FlatIPIndex) (q : List ℚ) (e : Int × ℚ)
    (he : e ∈ scoredList idx q) :
    ∃ i : Nat, i < idx.vecs.length ∧ e.1 = (i : Int) := by
  rcases List.mem_map.mp he with ⟨i, hi, heq⟩
  exact ⟨i, List.mem_range.mp hi, by rw [← heq]⟩

/-- C9: when `top_k` exceeds the number of stored vectors, `query_index`
still returns exactly `top_k` entries per query: FAISS pads the missing
slots with index `-1`, which Python negative indexing resolves to
`image_paths[-1]`, so the trailing entries all carry the last stored
keyframe path and the sentinel score instead of being omitted or raising an
error. -/
theorem query_topk_overflow_pads_last (idx : FlatIPIndex) (q : List ℚ)
    (paths : List String) (k : Nat) (hq : q.length = idx.d)
    (hk : idx.vecs.length < k) (halign : paths.length = idx.vecs.length)
    (hne : paths ≠ []) :
    ∃ out, query_index idx [q] paths k = .ok [out] ∧
      out.length = k ∧
      out.drop idx.vecs.length
        = List.replicate (k - idx.vecs.length) (paths.getLast hne, fltMin) := by
  have hperm : List.Perm (List.insertionSort resOrder (scoredList idx q))
      (scoredList idx q) := List.perm_insertionSort resOrder _
  have hSlen : (List.insertionSort resOrder (scoredList idx q)).length
      = idx.vecs.length := by
    rw [hperm.length_eq, scoredList_length]
  have hr : faissSearchOne idx q k
      = List.insertionSort resOrder (scoredList idx q)
        ++ List.replicate (k - idx.vecs.length) ((-1 : Int), fltMin) := by
    show (List.insertionSort resOrder (scoredList idx q)).take k ++ _ = _
    rw [List.take_of_length_le (by omega)]
  obtain ⟨ra, hra⟩ :=
    resolveRow_total paths (List.insertionSort resOrder (scoredList idx q)) (by
      intro e he
      obtain ⟨i, hi, hfst⟩ := scoredList_fst_lt idx q e (hperm.subset he)
      have hi' : i < paths.length := by omega
      rw [hfst, pyGet, if_pos (Int.natCast_nonneg i), Int.toNat_natCast,
        List.getElem?_eq_getElem hi']
      rfl)
  have hralen : ra.length = idx.vecs.length := by
    rw [resolveRow_length paths _ ra hra, hSlen]
  have hrow : resolveRow paths (faissSearchOne idx q k)
      = some (ra ++ List.replicate (k - idx.vecs.length)
          (paths.getLast hne, fltMin)) := by
    rw [hr]
    exact resolveRow_append paths _ _ _ _ hra (resolveRow_replicate paths hne _)
  have hok : faissSearch idx [q] k = .ok [faissSearchOne idx q k] := by
    simp [faissSearch, hq]
  refine ⟨ra ++ List.replicate (k - idx.vecs.length) (paths.getLast hne, fltMin),
    ?_, ?_, ?_⟩
  · simp only [query_index, hok, resolveRows, hrow, Option.some_bind,
      Option.map_some']
  · rw [List.length_append, hralen, List.length_replicate]
    omega
  · rw [← hralen, List.drop_left]

/-- Witness for C9: one stored vector, two aligned paths is impossible, so a
single path, `top_k = 3`: the second and third entries repeat the last
path with the sentinel score. -/
theorem query_topk_overflow_pads_last_witness :
    ∃ out, query_index ⟨1, [[(1 : ℚ)]]⟩ [[(1 : ℚ)]] ["a.jpg"] 3 = .ok [out] ∧
      out.length = 3 ∧
      out.drop (FlatIPIndex.mk 1 [[(1 : ℚ)]]).vecs.length
        = List.replicate (3 - (FlatIPIndex.mk 1 [[(1 : ℚ)]]).vecs.length)
            (["a.jpg"].getLast (by decide), fltMin) :=
  query_topk_overflow_pads_last ⟨1, [[(1 : ℚ)]]⟩ [(1 : ℚ)] ["a.jpg"] 3 rfl
    (by decide) rfl (by decide)

/-! ### C4 -/

theorem resolveRows_zip (paths : List String) (ls : List (List (Int × ℚ)))
    (rss : List (List (String × ℚ))) (h : resolveRows paths ls = some rss) :
    rss.length = ls.length ∧
    ∀ p ∈ ls.zip rss, resolveRow paths p.1 = some p.2 := by
  induction ls generalizing rss with
  | nil =>
    simp only [resolveRows] at h
    cases h
    simp
  | cons l ls ih =>
    simp only [resolveRows] at h
    rcases Option.bind_eq_some.mp h with ⟨out, hout, hrest⟩
    rcases Option.map_eq_some'.mp hrest with ⟨rest, hres, hcons⟩
    subst hcons
    obtain ⟨hlen, hall⟩ := ih rest hres
    refine ⟨by simp [hlen], ?_⟩
    intro p hp
    rw [List.zip_cons_cons] at hp
    rcases List.mem_cons.mp hp with hp | hp
    · subst hp
      exact hout
    · exact hall p hp

/-- C4: batching never changes results. Whenever `query_index` answers a
batch of query vectors, it returns one result row per query, and each row
is exactly what `query_index` returns for that query alone (same paths,
same scores, same order). -/
theorem batch_search_equals_single_queries (idx : FlatIPIndex)
    (qs : List (List ℚ)) (paths : List String) (k : Nat)
    (rss : List (List (String × ℚ)))
    (h : query_index idx qs paths k = .ok rss) :
    rss.length = qs.length ∧
    ∀ p ∈ qs.zip rss, query_index idx [p.1] paths k = .ok [p.2] := by
  rw [query_index, faissSearch] at h
  by_cases hall : qs.all (fun v => v.length = idx.d) = true
  case neg =>
    rw [if_neg hall] at h
    exact absurd h (by simp)
  rw [if_pos hall] at h
  have hdims : ∀ v ∈ qs, v.length = idx.d := by
    simpa using hall
  replace h :
      (match resolveRows paths (qs.map (fun q => faissSearchOne idx q k)) with
        | some out => (Except.ok out : Except PyError (List (List (String × ℚ))))
        | none => Except.error PyError.IndexError) = Except.ok rss := h
  cases hres : resolveRows paths (qs.map (fun q => faissSearchOne idx q k)) with
  | none =>
    rw [hres] at h
    exact absurd h (by simp)
  | some out =>
    rw [hres] at h
    have hout : out = rss := by
      simpa using h
    subst hout
    obtain ⟨hlen, hall2⟩ := resolveRows_zip paths _ _ hres
    refine ⟨by simpa using hlen, ?_⟩
    rintro ⟨q, r⟩ hp
    have hq : q ∈ qs := (List.of_mem_zip hp).1
    have hmem : (faissSearchOne idx q k, r)
        ∈ (qs.map (fun q => faissSearchOne idx q k)).zip out := by
      rw [List.zip_map_left]
      exact List.mem_map.mpr ⟨(q, r), hp, rfl⟩
    have hrow : resolveRow paths (faissSearchOne idx q k) = some r :=
      hall2 _ hmem
    have hok : faissSearch idx [q] k = .ok [faissSearchOne idx q k] := by
      simp [faissSearch, hdims q hq]
    simp only [query_index, hok, resolveRows, hrow, Option.some_bind,
      Option.map_some']

/-- Witness for C4 at a concrete two-query batch on a two-vector index. -/
theorem batch_search_equals_single_queries_witness :
    [[(("b" : String), (2 : ℚ))], [(("b" : String), (4 : ℚ))]].length
        = [[(1 : ℚ)], [(2 : ℚ)]].length ∧
    ∀ p ∈ [[(1 : ℚ)], [(2 : ℚ)]].zip
        [[(("b" : String), (2 : ℚ))], [(("b" : String), (4 : ℚ))]],
      query_index ⟨1, [[(1 : ℚ)], [2]]⟩ [p.1] ["a", "b"] 1 = .ok [p.2] :=
  batch_search_equals_single_queries ⟨1, [[(1 : ℚ)], [2]]⟩
    [[(1 : ℚ)], [(2 : ℚ)]] ["a", "b"] 1
    [[(("b" : String), (2 : ℚ))], [(("b" : String), (4 : ℚ))]]
    (by norm_num [query_index, faissSearch, faissSearchOne, scoredList, dot,
      List.range_succ, resolveRows, resolveRow, resolveSlot, pyGet, resOrder])

end VCRS
